import Mathlib

/-!
Verification of the `Nappy-Says/wallet` ledger service (Go package `wallet`).

Go strings are embedded as `List Char`; the standard-library helpers the
source relies on (`strings.Split` with a one-character separator,
`strconv.Itoa`, `strconv.Atoi` / `strconv.ParseInt` base 10) are embedded as
executable Lean functions below.  Pointer mutation of a slice element is
embedded as a functional update of the corresponding list element, and
fallible operations return their result paired with the post-state (Go
methods mutate the receiver in place; on the error paths of the operations
modelled here the receiver is returned unchanged except for the documented
partial-import behavior).
-/

namespace Wallet

/-- Converts a Lean string literal to the `List Char` representation used for
Go strings throughout this development. -/
def chars (s : String) : List Char := s.data

/-- Embeds Go `strings.Split(s, sep)` for a one-character separator `sep`
(the source only ever splits on `"|"`, `";"` and `"\n"`).  Like the Go
function, it returns `[[]]` on the empty string and one (possibly empty)
segment per separator occurrence. -/
def splitOnChar (sep : Char) : List Char → List (List Char)
  | [] => [[]]
  | c :: rest =>
    match splitOnChar sep rest with
    | [] => if c = sep then [[], []] else [[c]]
    | h :: t => if c = sep then [] :: h :: t else (c :: h) :: t

/-- Decimal digit character for `d < 10`, as produced by Go `strconv`. -/
def digitToChar (d : Nat) : Char :=
  match d with
  | 0 => '0' | 1 => '1' | 2 => '2' | 3 => '3' | 4 => '4'
  | 5 => '5' | 6 => '6' | 7 => '7' | 8 => '8' | _ => '9'

/-- Fuel-based decimal digit loop (structural recursion keeps the function
kernel-computable); with `n < fuel` it renders `n` most significant digit
first, matching Go `strconv.Itoa` on non-negative input. -/
def natToCharsAux : Nat → Nat → List Char
  | 0, _ => []
  | fuel + 1, n =>
    if n < 10 then [digitToChar n]
    else natToCharsAux fuel (n / 10) ++ [digitToChar (n % 10)]

/-- Decimal representation of a natural number, most significant digit
first, as produced by Go `strconv.Itoa` on non-negative input. -/
def natToChars (n : Nat) : List Char := natToCharsAux (n + 1) n

/-- Embeds Go `strconv.Itoa` (equivalently `fmt.Sprint` on an integer). -/
def Itoa (i : Int) : List Char :=
  if i < 0 then '-' :: natToChars i.natAbs else natToChars i.toNat

/-- Numeric value of a decimal digit character, `none` on a non-digit. -/
def charToDigit (c : Char) : Option Nat :=
  if 48 ≤ c.toNat ∧ c.toNat ≤ 57 then some (c.toNat - 48) else none

/-- Left-to-right accumulation of decimal digits; fails on any non-digit
character, mirroring Go `strconv`'s digit loop. -/
def digitsVal (acc : Nat) : List Char → Option Nat
  | [] => some acc
  | c :: rest =>
    match charToDigit c with
    | some d => digitsVal (acc * 10 + d) rest
    | none => none

/-- Embeds Go `strconv.Atoi` (and `strconv.ParseInt _ 10 64`, whose accepted
syntax is the same): an optional sign followed by at least one decimal
digit.  Overflow is not modelled; the repository manipulates small
balances only. -/
def Atoi (l : List Char) : Option Int :=
  match l with
  | [] => none
  | c :: rest =>
    if c = '-' then
      match rest, digitsVal 0 rest with
      | _ :: _, some n => some (-(n : Int))
      | _, _ => none
    else if c = '+' then
      match rest, digitsVal 0 rest with
      | _ :: _, some n => some ((n : Int))
      | _, _ => none
    else
      match digitsVal 0 (c :: rest) with
      | some n => some ((n : Int))
      | none => none

/-! ### Round-trip facts about the `strconv` embedding -/

theorem charToDigit_digitToChar (d : Nat) (h : d < 10) :
    charToDigit (digitToChar d) = some d := by
  interval_cases d <;> decide

theorem digitToChar_toNat (d : Nat) (h : d < 10) :
    48 ≤ (digitToChar d).toNat ∧ (digitToChar d).toNat ≤ 57 := by
  interval_cases d <;> decide

theorem natToCharsAux_ne_nil : ∀ (fuel n : Nat), n < fuel → natToCharsAux fuel n ≠ [] := by
  intro fuel
  induction fuel with
  | zero => intro n h; omega
  | succ fuel ih =>
    intro n h
    unfold natToCharsAux
    split <;> simp

theorem natToCharsAux_digits : ∀ (fuel n : Nat), n < fuel →
    ∀ c ∈ natToCharsAux fuel n, 48 ≤ c.toNat ∧ c.toNat ≤ 57 := by
  intro fuel
  induction fuel with
  | zero => intro n h; omega
  | succ fuel ih =>
    intro n h c hc
    rw [natToCharsAux] at hc
    by_cases h10 : n < 10
    · rw [if_pos h10] at hc
      simp only [List.mem_singleton] at hc
      subst hc
      exact digitToChar_toNat n h10
    · rw [if_neg h10] at hc
      rcases List.mem_append.mp hc with h1 | h2
      · exact ih (n / 10) (by omega) c h1
      · simp only [List.mem_singleton] at h2
        subst h2
        exact digitToChar_toNat (n % 10) (Nat.mod_lt _ (by omega))

theorem digitsVal_natToCharsAux : ∀ (fuel n : Nat), n < fuel →
    ∀ (acc : Nat) (rest : List Char),
    digitsVal acc (natToCharsAux fuel n ++ rest) =
      digitsVal (acc * 10 ^ (natToCharsAux fuel n).length + n) rest := by
  intro fuel
  induction fuel with
  | zero => intro n h; omega
  | succ fuel ih =>
    intro n h acc rest
    rw [natToCharsAux]
    by_cases h10 : n < 10
    · rw [if_pos h10]
      simp [digitsVal, charToDigit_digitToChar n h10]
    · rw [if_neg h10]
      rw [List.append_assoc, ih (n / 10) (by omega)]
      simp only [List.cons_append, List.nil_append, digitsVal,
        charToDigit_digitToChar (n % 10) (Nat.mod_lt _ (by omega)),
        List.length_append, List.length_singleton]
      have hrec : (acc * 10 ^ (natToCharsAux fuel (n / 10)).length + n / 10) * 10 + n % 10 =
          acc * 10 ^ ((natToCharsAux fuel (n / 10)).length + 1) + n := by
        have := Nat.div_add_mod n 10
        ring_nf
        omega
      rw [hrec]
      rfl

theorem natToChars_ne_nil (n : Nat) : natToChars n ≠ [] :=
  natToCharsAux_ne_nil (n + 1) n (by omega)

theorem natToChars_digits (n : Nat) :
    ∀ c ∈ natToChars n, 48 ≤ c.toNat ∧ c.toNat ≤ 57 :=
  natToCharsAux_digits (n + 1) n (by omega)

theorem digitsVal_natToChars (n : Nat) :
    ∀ acc rest, digitsVal acc (natToChars n ++ rest) =
      digitsVal (acc * 10 ^ (natToChars n).length + n) rest :=
  fun acc rest => digitsVal_natToCharsAux (n + 1) n (by omega) acc rest

theorem digitsVal_natToChars_nil (n : Nat) :
    digitsVal 0 (natToChars n) = some n := by
  have := digitsVal_natToChars n 0 []
  simpa [digitsVal] using this

/-- `strconv.Atoi` inverts `strconv.Itoa`. -/
theorem Atoi_Itoa (i : Int) : Atoi (Itoa i) = some i := by
  unfold Itoa
  split
  case isTrue h =>
    obtain ⟨c, cs, hcons⟩ : ∃ c cs, natToChars i.natAbs = c :: cs := by
      cases hn : natToChars i.natAbs with
      | nil => exact absurd hn (natToChars_ne_nil _)
      | cons c cs => exact ⟨c, cs, rfl⟩
    have hd : digitsVal 0 (c :: cs) = some i.natAbs := by
      rw [← hcons]; exact digitsVal_natToChars_nil _
    rw [hcons]
    simp only [Atoi, hd, if_pos]
    exact congrArg some (by omega)
  case isFalse h =>
    obtain ⟨c, cs, hcons⟩ : ∃ c cs, natToChars i.toNat = c :: cs := by
      cases hn : natToChars i.toNat with
      | nil => exact absurd hn (natToChars_ne_nil _)
      | cons c cs => exact ⟨c, cs, rfl⟩
    have hdig : 48 ≤ c.toNat ∧ c.toNat ≤ 57 :=
      natToChars_digits i.toNat c (hcons ▸ List.mem_cons_self c cs)
    have hne1 : c ≠ '-' := by
      intro hc; subst hc; revert hdig; decide
    have hne2 : c ≠ '+' := by
      intro hc; subst hc; revert hdig; decide
    have hd : digitsVal 0 (c :: cs) = some i.toNat := by
      rw [← hcons]; exact digitsVal_natToChars_nil _
    rw [hcons]
    simp only [Atoi, if_neg hne1, if_neg hne2, hd]
    exact congrArg some (by omega)

/-- Every character of an `Itoa` rendering is a decimal digit or the minus
sign; in particular none of the delimiters `;`, `|`, `\n` occurs. -/
theorem Itoa_chars (i : Int) :
    ∀ c ∈ Itoa i, c.toNat = 45 ∨ (48 ≤ c.toNat ∧ c.toNat ≤ 57) := by
  unfold Itoa
  split
  · intro c hc
    rcases List.mem_cons.mp hc with h | h
    · subst h; left; rfl
    · right; exact natToChars_digits _ c h
  · intro c hc
    right; exact natToChars_digits _ c hc

theorem Itoa_not_mem (i : Int) (sep : Char)
    (h : sep.toNat ≠ 45 ∧ ¬(48 ≤ sep.toNat ∧ sep.toNat ≤ 57)) : sep ∉ Itoa i := by
  intro hmem
  rcases Itoa_chars i sep hmem with h1 | h1
  · exact h.1 h1
  · exact h.2 h1

theorem semi_not_mem_Itoa (i : Int) : ';' ∉ Itoa i :=
  Itoa_not_mem i ';' (by decide)

theorem pipe_not_mem_Itoa (i : Int) : '|' ∉ Itoa i :=
  Itoa_not_mem i '|' (by decide)

theorem newline_not_mem_Itoa (i : Int) : '\n' ∉ Itoa i :=
  Itoa_not_mem i '\n' (by decide)

/-! ### Split lemmas -/

theorem splitOnChar_ne_nil (sep : Char) (l : List Char) : splitOnChar sep l ≠ [] := by
  cases l with
  | nil => simp [splitOnChar]
  | cons c rest =>
    rw [splitOnChar]
    split <;> split <;> simp

theorem splitOnChar_no_sep (sep : Char) (l : List Char) (h : sep ∉ l) :
    splitOnChar sep l = [l] := by
  induction l with
  | nil => rfl
  | cons c rest ih =>
    have hc : c ≠ sep := fun hh => h (hh ▸ List.mem_cons_self c rest)
    have hrest : sep ∉ rest := fun hh => h (List.mem_cons_of_mem c hh)
    rw [splitOnChar, ih hrest]
    simp [hc]

theorem splitOnChar_append (sep : Char) (r t : List Char) (h : sep ∉ r) :
    splitOnChar sep (r ++ sep :: t) = r :: splitOnChar sep t := by
  induction r with
  | nil =>
    rw [List.nil_append, splitOnChar]
    rcases ht : splitOnChar sep t with _ | ⟨h', t'⟩
    · exact absurd ht (splitOnChar_ne_nil sep t)
    · simp
  | cons c rest ih =>
    have hc : c ≠ sep := fun hh => h (hh ▸ List.mem_cons_self c rest)
    have hrest : sep ∉ rest := fun hh => h (List.mem_cons_of_mem c hh)
    rw [List.cons_append, splitOnChar, ih hrest]
    simp [hc]

/-- Splitting the concatenation of separator-terminated records recovers the
records followed by one empty trailing segment. -/
theorem splitOnChar_join (sep : Char) (recs : List (List Char))
    (h : ∀ r ∈ recs, sep ∉ r) :
    splitOnChar sep ((recs.map (fun r => r ++ [sep])).flatten) = recs ++ [[]] := by
  induction recs with
  | nil => rfl
  | cons r rest ih =>
    have hr : sep ∉ r := h r (List.mem_cons_self r rest)
    have hrest : ∀ x ∈ rest, sep ∉ x := fun x hx => h x (List.mem_cons_of_mem r hx)
    simp only [List.map_cons, List.flatten_cons, List.append_assoc, List.singleton_append]
    rw [splitOnChar_append sep r _ hr, ih hrest]
    rfl

/-! ### Data model

Modelled from the spec: the `types` package of the repository is not part of
the provided sources; the record shapes below follow its use in the service
code and the spec's data model (Account `{ID, Phone, Balance}`, Payment
`{ID, AccountID, Amount, Category, Status}`, Favorite
`{ID, AccountID, Name, Amount, Category}`).  The two payment-status
constants are two distinct strings. -/

structure Account where
  id : Int
  phone : List Char
  balance : Int
  deriving DecidableEq

structure Payment where
  id : List Char
  accountID : Int
  amount : Int
  category : List Char
  status : List Char
  deriving DecidableEq

structure Favorite where
  id : List Char
  accountID : Int
  name : List Char
  amount : Int
  category : List Char
  deriving DecidableEq

/-- Modelled from the spec: `types.PaymentStatusInProgress` (the `types`
package is not in the provided sources); any string distinct from
`statusFail` works for the development. -/
def statusInProgress : List Char := chars "INPROGRESS"

/-- Modelled from the spec: `types.PaymentStatusFail`. -/
def statusFail : List Char := chars "FAIL"

/-- The error values of the `wallet` package (`ErrPhoneRegistered`,
`ErrAmountMustBePositive`, `ErrAccountNotFound`, `ErrNotEnoughtBalance`,
`ErrPaymentNotFound`, `ErrFavoriteNotFound`, `ErrFileNotFound`), plus
`parseErr` standing for the `strconv` errors that `ImportFromFile` and
`Import` propagate verbatim. -/
inductive Err where
  | phoneRegistered
  | amountMustBePositive
  | accountNotFound
  | notEnoughBalance
  | paymentNotFound
  | favoriteNotFound
  | fileNotFound
  | parseErr
  deriving DecidableEq

/-- The `Service` struct: ID counter plus the three entity collections.
Go stores pointers; mutation through a pointer is embedded as functional
update of the list element. -/
structure Service where
  nextAccountID : Int
  accounts : List Account
  payments : List Payment
  favorites : List Favorite
  deriving DecidableEq

def emptyService : Service := ⟨0, [], [], []⟩

/-! ### Ledger operations

Each operation returns its Go result paired with the post-state of the
receiver. -/

/-- Embeds `Service.RegisterAccount`. -/
def RegisterAccount (s : Service) (phone : List Char) : Except Err Account × Service :=
  if s.accounts.any (fun account => account.phone = phone) then
    (.error .phoneRegistered, s)
  else
    let account : Account := ⟨s.nextAccountID + 1, phone, 0⟩
    (.ok account,
      { s with nextAccountID := s.nextAccountID + 1, accounts := s.accounts ++ [account] })

/-- Embeds `Service.FindAccountByID`: first match of a linear scan (the Go
loop breaks at the first hit). Queries do not change the receiver. -/
def FindAccountByID (s : Service) (accountID : Int) : Except Err Account :=
  match s.accounts.find? (fun acc => acc.id = accountID) with
  | some acc => .ok acc
  | none => .error .accountNotFound

/-- Embeds `Service.FindPaymentByID`: the Go loop has no `break`, so the
variable keeps the LAST matching payment. -/
def FindPaymentByID (s : Service) (paymentID : List Char) : Except Err Payment :=
  match s.payments.foldl (fun found p => if p.id = paymentID then some p else found) none with
  | some p => .ok p
  | none => .error .paymentNotFound

/-- Embeds `Service.FindFavoriteByID`: first match (the Go loop returns
immediately on a hit). -/
def FindFavoriteByID (s : Service) (favoriteID : List Char) : Except Err Favorite :=
  match s.favorites.find? (fun f => f.id = favoriteID) with
  | some f => .ok f
  | none => .error .favoriteNotFound

/-- Functional update of the first account with the given ID, embedding a
Go write through the pointer returned by the account-lookup loop. -/
def updateFirstAccount (l : List Account) (accountID : Int) (f : Account → Account) :
    List Account :=
  match l with
  | [] => []
  | a :: rest =>
    if a.id = accountID then f a :: rest else a :: updateFirstAccount rest accountID f

/-- Embeds `Service.Pay`.  The collision-free payment ID produced by the
external `uuid` generator (a black box per the spec) is passed in as
`paymentID`. -/
def Pay (s : Service) (accountID : Int) (amount : Int) (category : List Char)
    (paymentID : List Char) : Except Err Payment × Service :=
  if amount ≤ 0 then (.error .amountMustBePositive, s)
  else
    match s.accounts.find? (fun acc => acc.id = accountID) with
    | none => (.error .accountNotFound, s)
    | some account =>
      if account.balance < amount then (.error .notEnoughBalance, s)
      else
        let payment : Payment := ⟨paymentID, accountID, amount, category, statusInProgress⟩
        (.ok payment,
          { s with
            accounts := updateFirstAccount s.accounts accountID
              (fun a => { a with balance := a.balance - amount }),
            payments := s.payments ++ [payment] })

/-- Embeds `Service.Deposit` (note the strict `amount < 0` check, unlike
`Pay`'s `amount <= 0`). -/
def Deposit (s : Service) (accountID : Int) (amount : Int) : Except Err Unit × Service :=
  if amount < 0 then (.error .amountMustBePositive, s)
  else
    match FindAccountByID s accountID with
    | .error e => (.error e, s)
    | .ok _ =>
      let credited := updateFirstAccount s.accounts accountID
        (fun a => { a with balance := a.balance + amount })
      (.ok (), { s with accounts := credited })

/-- Sets the status of the LAST payment carrying the given ID (the element
`FindPaymentByID` returns a pointer to). -/
def setStatusLastPayment (l : List Payment) (paymentID : List Char) (st : List Char) :
    List Payment :=
  match l with
  | [] => []
  | p :: rest =>
    if rest.any (fun q => q.id = paymentID) then p :: setStatusLastPayment rest paymentID st
    else if p.id = paymentID then { p with status := st } :: rest
    else p :: setStatusLastPayment rest paymentID st

/-- Embeds `Service.Reject`: looks up the payment (last match) and its
account, then flips the payment status to Fail and credits the full amount
back — with no check of the payment's previous status. -/
def Reject (s : Service) (paymentID : List Char) : Except Err Unit × Service :=
  match FindPaymentByID s paymentID with
  | .error e => (.error e, s)
  | .ok p =>
    match FindAccountByID s p.accountID with
    | .error e => (.error e, s)
    | .ok _ =>
      (.ok (),
        { s with
          payments := setStatusLastPayment s.payments paymentID statusFail,
          accounts := updateFirstAccount s.accounts p.accountID
            (fun a => { a with balance := a.balance + p.amount }) })

/-! ### Format A (single file, accounts only) -/

/-- One account's serialized fields `<ID>;<Phone>;<Balance>`, shared by
both persistence formats (Format A terminates it with `|`, Format B
with `\n`). -/
def recordA (a : Account) : List Char :=
  Itoa a.id ++ chars ";" ++ a.phone ++ chars ";" ++ Itoa a.balance

/-- Embeds the serialization body of `Service.ExportToFile`: per account
`<ID>;<Phone>;<Balance>|`, concatenated.  The surrounding file I/O (create
and write, failing with `ErrFileNotFound`) is environment interaction; the
content written is what the claims are about. -/
def ExportToFile (s : Service) : List Char :=
  (s.accounts.map (fun a => recordA a ++ chars "|")).flatten

/-- One record of `Service.ImportFromFile`'s loop: split the record on `;`,
parse field 0 as the ID and field 2 as the balance (either failure aborts
the import with the parse error), field 1 is the phone.  Go indexes
`splits[0]` and `splits[2]` directly and would panic on a record with fewer
than three fields; the inputs considered here always carry at least three
fields, on which `getD` coincides. -/
def parseAccountA (record : List Char) : Option Account :=
  let splits := splitOnChar ';' record
  match Atoi (splits.getD 0 []), Atoi (splits.getD 2 []) with
  | some id, some balance => some ⟨id, splits.getD 1 [], balance⟩
  | _, _ => none

/-- The record loop of `Service.ImportFromFile`: every parsed record is
appended (no duplicate check, no merging); a parse failure aborts,
keeping the accounts appended so far. -/
def importAccountRecords (s : Service) : List (List Char) → Except Err Unit × Service
  | [] => (.ok (), s)
  | record :: rest =>
    match parseAccountA record with
    | none => (.error .parseErr, s)
    | some account =>
      importAccountRecords { s with accounts := s.accounts ++ [account] } rest

/-- Embeds `Service.ImportFromFile`.  `file` is the content of the file at
the given path, or `none` when it cannot be opened (Go returns
`ErrFileNotFound`).  The content is split on `|` and the final segment is
dropped (`accounts = accounts[:len(accounts)-1]`). -/
def ImportFromFile (s : Service) (file : Option (List Char)) : Except Err Unit × Service :=
  match file with
  | none => (.error .fileNotFound, s)
  | some content => importAccountRecords s ((splitOnChar '|' content).dropLast)

/-! ### Format B (per-entity dump files in a directory) -/

/-- The three files `Service.Export` may write into the directory; `none`
means the file does not exist. -/
structure Dir where
  accountsDump : Option (List Char)
  paymentsDump : Option (List Char)
  favoritesDump : Option (List Char)
  deriving DecidableEq

def emptyDir : Dir := ⟨none, none, none⟩

/-- One payment's serialized fields
`<ID>;<AccountID>;<Amount>;<Category>;<Status>` as written by
`Service.Export`. -/
def recordBP (p : Payment) : List Char :=
  p.id ++ chars ";" ++ Itoa p.accountID ++ chars ";" ++ Itoa p.amount ++ chars ";" ++
    p.category ++ chars ";" ++ p.status

/-- One favorite's serialized fields `<ID>;<AccountID>;<Amount>;<Category>`
as written by `Service.Export` (the Name field is not serialized). -/
def recordBF (f : Favorite) : List Char :=
  f.id ++ chars ";" ++ Itoa f.accountID ++ chars ";" ++ Itoa f.amount ++ chars ";" ++ f.category

/-- Embeds `Service.Export`: one `\n`-terminated `;`-joined line per record,
a file only being written when its collection is non-empty.  The favorites
line carries no Name field. -/
def Export (s : Service) : Dir :=
  { accountsDump :=
      if s.accounts.isEmpty then none
      else some ((s.accounts.map (fun a => recordA a ++ chars "\n")).flatten),
    paymentsDump :=
      if s.payments.isEmpty then none
      else some ((s.payments.map (fun p => recordBP p ++ chars "\n")).flatten),
    favoritesDump :=
      if s.favorites.isEmpty then none
      else some ((s.favorites.map (fun f => recordBF f ++ chars "\n")).flatten) }

/-- The account-record loop of `Service.Import`: parse ID (field 0) and
balance (field 2) as integers; if an account with the same ID exists, every
such account's phone and balance are overwritten in place, otherwise a new
account is appended. -/
def importDumpAccounts (s : Service) : List (List Char) → Except Err Unit × Service
  | [] => (.ok (), s)
  | line :: rest =>
    let splits := splitOnChar ';' line
    match Atoi (splits.getD 0 []), Atoi (splits.getD 2 []) with
    | some id, some balance =>
      if s.accounts.any (fun v => v.id = id) then
        importDumpAccounts
          { s with accounts := s.accounts.map (fun v =>
              if v.id = id then { v with phone := splits.getD 1 [], balance := balance } else v) }
          rest
      else
        importDumpAccounts
          { s with accounts := s.accounts ++ [⟨id, splits.getD 1 [], balance⟩] } rest
    | _, _ => (.error .parseErr, s)

/-- The payment-record loop of `Service.Import`: field 0 is the (string) ID,
fields 1 and 2 parse as AccountID and Amount, fields 3 and 4 are Category
and Status; merge-by-ID, else append. -/
def importDumpPayments (s : Service) : List (List Char) → Except Err Unit × Service
  | [] => (.ok (), s)
  | line :: rest =>
    let splits := splitOnChar ';' line
    match Atoi (splits.getD 1 []), Atoi (splits.getD 2 []) with
    | some aid, some amount =>
      let id := splits.getD 0 []
      if s.payments.any (fun v => v.id = id) then
        importDumpPayments
          { s with payments := s.payments.map (fun v =>
              if v.id = id then
                { v with accountID := aid, amount := amount,
                         category := splits.getD 3 [], status := splits.getD 4 [] }
              else v) }
          rest
      else
        importDumpPayments
          { s with payments := s.payments ++
              [⟨id, aid, amount, splits.getD 3 [], splits.getD 4 []⟩] } rest
    | _, _ => (.error .parseErr, s)

/-- The favorite-record loop of `Service.Import`: field 0 is the ID, fields
1 and 2 parse as AccountID and Amount, field 3 is Category; merge-by-ID,
else append.  The appended favorite has an empty Name (the Go struct
literal omits that field). -/
def importDumpFavorites (s : Service) : List (List Char) → Except Err Unit × Service
  | [] => (.ok (), s)
  | line :: rest =>
    let splits := splitOnChar ';' line
    match Atoi (splits.getD 1 []), Atoi (splits.getD 2 []) with
    | some aid, some amount =>
      let id := splits.getD 0 []
      if s.favorites.any (fun v => v.id = id) then
        importDumpFavorites
          { s with favorites := s.favorites.map (fun v =>
              if v.id = id then
                { v with accountID := aid, amount := amount, category := splits.getD 3 [] }
              else v) }
          rest
      else
        importDumpFavorites
          { s with favorites := s.favorites ++
              [⟨id, aid, [], amount, splits.getD 3 []⟩] } rest
    | _, _ => (.error .parseErr, s)

/-- Lines of one dump file: split on `\n` and drop the trailing empty
segment (`strArray = strArray[:len(strArray)-1]`). -/
def dumpLines (content : List Char) : List (List Char) :=
  (splitOnChar '\n' content).dropLast

/-- The accounts.dump phase of `Service.Import`: a missing file
(`os.Stat` failure) is silently skipped. -/
def importStepAccounts (s : Service) (o : Option (List Char)) : Except Err Unit × Service :=
  match o with
  | none => (.ok (), s)
  | some content => importDumpAccounts s (dumpLines content)

/-- The payments.dump phase of `Service.Import`. -/
def importStepPayments (s : Service) (o : Option (List Char)) : Except Err Unit × Service :=
  match o with
  | none => (.ok (), s)
  | some content => importDumpPayments s (dumpLines content)

/-- The favorites.dump phase of `Service.Import`. -/
def importStepFavorites (s : Service) (o : Option (List Char)) : Except Err Unit × Service :=
  match o with
  | none => (.ok (), s)
  | some content => importDumpFavorites s (dumpLines content)

/-- Embeds `Service.Import`: each of the three files is processed if it
exists (`os.Stat` failure means silent skip); a parse error aborts the
whole import, keeping the records already applied. -/
def Import (s : Service) (dir : Dir) : Except Err Unit × Service :=
  match importStepAccounts s dir.accountsDump with
  | (.error e, s1) => (.error e, s1)
  | (.ok (), s1) =>
    match importStepPayments s1 dir.paymentsDump with
    | (.error e, s2) => (.error e, s2)
    | (.ok (), s2) => importStepFavorites s2 dir.favoritesDump

/-! ### Parallel aggregator -/

/-- Embeds `Service.SumPayments`.  Worker `i < goroutines-1` sums the slice
`payments[i*kol : (i+1)*kol]`; the final worker sums `payments[i*kol:]`
where `i` is the loop variable's final value (`goroutines-1` when at least
one iteration ran, `0` otherwise — Nat subtraction matches both).  The
workers only read disjoint slices and combine their subtotals under a
mutex; since integer addition is commutative and associative the
concurrent accumulation is embedded as the sum of the per-chunk sums. -/
def SumPayments (s : Service) (goroutines : Nat) : Int :=
  let kol : Nat :=
    if goroutines = 0 then s.payments.length else s.payments.length / goroutines
  let base : Int :=
    ((List.range (goroutines - 1)).map (fun i =>
      (((s.payments.drop (i * kol)).take kol).map (fun p => p.amount)).sum)).sum
  let tail : Int :=
    ((s.payments.drop ((goroutines - 1) * kol)).map (fun p => p.amount)).sum
  base + tail

/-! ### Operation sequences over a single account (claim C1) -/

/-- One caller-level operation of the Pay/Deposit/Reject fragment.  A `pay`
carries the payment ID the external uuid generator would produce. -/
inductive Op where
  | pay (accountID : Int) (amount : Int) (category : List Char) (paymentID : List Char)
  | deposit (accountID : Int) (amount : Int)
  | reject (paymentID : List Char)

/-- Runs a sequence of operations, also returning the trace sums
`(deposited, paid, refunded)`: the amounts of the successful deposits, the
amounts of the successfully created payments, and the amounts refunded by
the successful `Reject` calls (each call counted). -/
def runOps (s : Service) : List Op → Service × (Int × Int × Int)
  | [] => (s, (0, 0, 0))
  | op :: rest =>
    match op with
    | .pay aid amount cat pid =>
      let out := Pay s aid amount cat pid
      let next := runOps out.2 rest
      let δ : Int := match out.1 with | .ok _ => amount | .error _ => 0
      (next.1, (next.2.1, next.2.2.1 + δ, next.2.2.2))
    | .deposit aid amount =>
      let out := Deposit s aid amount
      let next := runOps out.2 rest
      let δ : Int := match out.1 with | .ok _ => amount | .error _ => 0
      (next.1, (next.2.1 + δ, next.2.2.1, next.2.2.2))
    | .reject pid =>
      let out := Reject s pid
      let next := runOps out.2 rest
      let δ : Int :=
        match out.1, FindPaymentByID s pid with
        | .ok _, .ok p => p.amount
        | _, _ => 0
      (next.1, (next.2.1, next.2.2.1, next.2.2.2 + δ))

/-- Sum of the amounts of the payments never rejected (a payment's status
is `Fail` exactly when some `Reject` call hit it, the only status
mutation in the code). -/
def sumNeverRejected (s : Service) : Int :=
  ((s.payments.filter (fun p => p.status ≠ statusFail)).map (fun p => p.amount)).sum

/-! ### Helper lemmas -/

/-- The chunk sums over `m` chunks of width `k` plus the sum of the rest of
the list add up to the sum of the whole list. -/
theorem chunked_sum (l : List Int) (k m : Nat) :
    ((List.range m).map (fun i => ((l.drop (i * k)).take k).sum)).sum
      + (l.drop (m * k)).sum = l.sum := by
  induction m with
  | zero => simp
  | succ m ih =>
    rw [List.range_succ]
    simp only [List.map_append, List.map_cons, List.map_nil, List.sum_append,
      List.sum_cons, List.sum_nil]
    have h1 : ((l.drop (m * k)).take k).sum + ((l.drop (m * k)).drop k).sum
        = (l.drop (m * k)).sum := List.sum_take_add_sum_drop _ _
    have h2 : (l.drop (m * k)).drop k = l.drop ((m + 1) * k) := by
      rw [List.drop_drop]
      congr 1
      ring
    rw [h2] at h1
    omega

/-- The last-match `foldl` of `FindPaymentByID` keeps its accumulator over a
stretch with no matching payment. -/
theorem foldl_lastMatch_no_match (pid : List Char) (l : List Payment) (acc : Option Payment)
    (h : ∀ q ∈ l, q.id ≠ pid) :
    l.foldl (fun found p => if p.id = pid then some p else found) acc = acc := by
  induction l generalizing acc with
  | nil => rfl
  | cons q rest ih =>
    have hq : q.id ≠ pid := h q (List.mem_cons_self _ _)
    rw [List.foldl_cons, if_neg hq]
    exact ih _ (fun x hx => h x (List.mem_cons_of_mem _ hx))

/-- `updateFirstAccount` with a pointwise-identity update changes nothing. -/
theorem updateFirstAccount_congr_id (l : List Account) (accountID : Int)
    (f : Account → Account) (h : ∀ a, f a = a) :
    updateFirstAccount l accountID f = l := by
  induction l with
  | nil => rfl
  | cons a rest ih =>
    unfold updateFirstAccount
    split <;> simp [h, ih]

/-! ### Claims -/

/-- The five-payment collection of the spec's aggregator example. -/
def fivePayments : Service :=
  { nextAccountID := 0, accounts := [],
    payments := [100, 250, 50, 10, 5].map (fun a =>
      { id := chars "x", accountID := 1, amount := a, category := chars "c",
        status := statusInProgress }),
    favorites := [] }

/-- C3: `SumPayments` returns the sum of all payment amounts for every
worker count (worker count 0 sums everything as one chunk and does not
divide by zero); in particular on amounts `[100, 250, 50, 10, 5]` worker
counts 3, 1 and 0 all yield 415. -/
theorem C3_sum_payments :
    (∀ (s : Service) (workerCount : Nat),
      SumPayments s workerCount = (s.payments.map (fun p => p.amount)).sum) ∧
    SumPayments fivePayments 3 = 415 ∧
    SumPayments fivePayments 1 = 415 ∧
    SumPayments fivePayments 0 = 415 := by
  refine ⟨fun s workerCount => ?_, by decide, by decide, by decide⟩
  unfold SumPayments
  simp only [List.map_take, List.map_drop]
  exact chunked_sum (s.payments.map (fun p => p.amount)) _ _

/-- C9: `FindPaymentByID` fails with `paymentNotFound` when no payment
carries the ID, and otherwise returns the LAST matching payment (the Go
scan has no break, so later matches overwrite earlier ones). -/
theorem C9_find_payment_last (s : Service) (pid : List Char) :
    ((∀ q ∈ s.payments, q.id ≠ pid) →
      FindPaymentByID s pid = .error .paymentNotFound) ∧
    (∀ l1 p l2, s.payments = l1 ++ p :: l2 → p.id = pid →
      (∀ q ∈ l2, q.id ≠ pid) → FindPaymentByID s pid = .ok p) := by
  constructor
  · intro h
    unfold FindPaymentByID
    rw [foldl_lastMatch_no_match pid _ none h]
  · intro l1 p l2 hsplit hp h2
    unfold FindPaymentByID
    rw [hsplit, List.foldl_append, List.foldl_cons, if_pos hp,
      foldl_lastMatch_no_match pid _ _ h2]

def dupP1 : Payment := ⟨chars "x", 1, 1, chars "c", statusInProgress⟩

def dupP2 : Payment := ⟨chars "x", 2, 2, chars "c", statusInProgress⟩

/-- A collection holding two payments that share an ID. -/
def dupPayService : Service := ⟨0, [], [dupP1, dupP2], []⟩

/-- Witness for C9: on a collection with two payments sharing the ID `x`,
the later one is returned. -/
theorem C9_witness : FindPaymentByID dupPayService (chars "x") = .ok dupP2 :=
  (C9_find_payment_last dupPayService (chars "x")).2 [dupP1] dupP2 [] rfl rfl
    (by simp)

/-- C8: registering an already-present phone fails with `phoneRegistered`
and leaves the service (hence the account count) unchanged; a successful
registration returns the account `⟨nextAccountID+1, phone, 0⟩`, appends it,
and a second registration of the same phone then fails, leaving the count
unchanged. -/
theorem C8_register_account (s : Service) (phone : List Char) :
    ((∃ a ∈ s.accounts, a.phone = phone) →
      RegisterAccount s phone = (.error .phoneRegistered, s)) ∧
    (∀ acct s1, RegisterAccount s phone = (.ok acct, s1) →
      acct = ⟨s.nextAccountID + 1, phone, 0⟩ ∧
      s1 = { s with nextAccountID := s.nextAccountID + 1,
                    accounts := s.accounts ++ [acct] } ∧
      s1.accounts.length = s.accounts.length + 1 ∧
      RegisterAccount s1 phone = (.error .phoneRegistered, s1)) := by
  constructor
  · rintro ⟨a, ha, hp⟩
    have hany : s.accounts.any (fun account => account.phone = phone) = true := by
      rw [List.any_eq_true]
      exact ⟨a, ha, by simp [hp]⟩
    simp [RegisterAccount, hany]
  · intro acct s1 h
    cases hany : s.accounts.any (fun account => account.phone = phone) with
    | true => simp [RegisterAccount, hany] at h
    | false =>
      simp only [RegisterAccount, hany, Bool.false_eq_true, if_false, Prod.mk.injEq,
        Except.ok.injEq] at h
      obtain ⟨ha, hs⟩ := h
      subst ha
      subst hs
      refine ⟨rfl, rfl, by simp, ?_⟩
      have hany2 : (s.accounts ++ [(⟨s.nextAccountID + 1, phone, 0⟩ : Account)]).any
          (fun account => account.phone = phone) = true := by
        rw [List.any_eq_true]
        exact ⟨⟨s.nextAccountID + 1, phone, 0⟩, by simp, by simp⟩
      simp [RegisterAccount, hany2]

/-- Witness for C8: registering phone `900` twice on the empty service. -/
theorem C8_witness :
    RegisterAccount ⟨1, [⟨1, chars "900", 0⟩], [], []⟩ (chars "900") =
      (.error .phoneRegistered, ⟨1, [⟨1, chars "900", 0⟩], [], []⟩) :=
  (C8_register_account ⟨1, [⟨1, chars "900", 0⟩], [], []⟩ (chars "900")).1
    ⟨⟨1, chars "900", 0⟩, by simp, rfl⟩

/-- C7: `Pay` rejects any `amount ≤ 0` with `amountMustBePositive`, while
`Deposit` rejects only `amount < 0`; `Deposit` of zero on an existing
account succeeds and leaves the service (hence the balance) unchanged. -/
theorem C7_amount_asymmetry (s : Service) (accountID amount : Int)
    (category paymentID : List Char) :
    (amount ≤ 0 →
      Pay s accountID amount category paymentID = (.error .amountMustBePositive, s)) ∧
    (amount < 0 → Deposit s accountID amount = (.error .amountMustBePositive, s)) ∧
    (∀ acc, FindAccountByID s accountID = .ok acc →
      Deposit s accountID 0 = (.ok (), s)) := by
  refine ⟨fun h => by simp [Pay, h], fun h => by simp [Deposit, h], fun acc h => ?_⟩
  have hid : updateFirstAccount s.accounts accountID
      (fun a => { a with balance := a.balance }) = s.accounts :=
    updateFirstAccount_congr_id _ _ _ (fun a => rfl)
  simp [Deposit, h, hid]

theorem findAccount_none_iff (s : Service) (aid : Int) :
    FindAccountByID s aid = .error .accountNotFound ↔
      s.accounts.find? (fun a => a.id = aid) = none := by
  unfold FindAccountByID
  cases h : s.accounts.find? (fun a => a.id = aid) <;> simp

theorem findAccount_some_iff (s : Service) (aid : Int) (acc : Account) :
    FindAccountByID s aid = .ok acc ↔
      s.accounts.find? (fun a => a.id = aid) = some acc := by
  unfold FindAccountByID
  cases h : s.accounts.find? (fun a => a.id = aid) <;> simp

/-- Looking up an ID after updating the first account with that ID sees the
updated account, provided the update preserves the ID. -/
theorem find_updateFirstAccount (l : List Account) (aid : Int) (f : Account → Account)
    (hf : ∀ a, (f a).id = a.id) :
    (updateFirstAccount l aid f).find? (fun a => a.id = aid) =
      (l.find? (fun a => a.id = aid)).map f := by
  induction l with
  | nil => rfl
  | cons a rest ih =>
    unfold updateFirstAccount
    by_cases h : a.id = aid
    · rw [if_pos h, List.find?_cons_of_pos _ (by simp [hf, h]),
        List.find?_cons_of_pos _ (by simp [h])]
      rfl
    · rw [if_neg h, List.find?_cons_of_neg _ (by simp [h]),
        List.find?_cons_of_neg _ (by simp [h]), ih]

/-- C2: the full `Pay` contract — the three failure modes in their checking
order, and the success case debiting the first account with the given ID
and appending the freshly built `InProgress` payment. -/
theorem C2_pay_contract (s : Service) (accountID amount : Int)
    (category paymentID : List Char) :
    (amount ≤ 0 → Pay s accountID amount category paymentID =
      (.error .amountMustBePositive, s)) ∧
    (0 < amount → FindAccountByID s accountID = .error .accountNotFound →
      Pay s accountID amount category paymentID = (.error .accountNotFound, s)) ∧
    (∀ acc, 0 < amount → FindAccountByID s accountID = .ok acc → acc.balance < amount →
      Pay s accountID amount category paymentID = (.error .notEnoughBalance, s)) ∧
    (∀ acc, 0 < amount → FindAccountByID s accountID = .ok acc → amount ≤ acc.balance →
      Pay s accountID amount category paymentID =
        (.ok (⟨paymentID, accountID, amount, category, statusInProgress⟩ : Payment),
          { s with
            accounts := updateFirstAccount s.accounts accountID
              (fun a => { a with balance := a.balance - amount }),
            payments := s.payments ++
              [⟨paymentID, accountID, amount, category, statusInProgress⟩] }) ∧
      FindAccountByID (Pay s accountID amount category paymentID).2 accountID =
        .ok { acc with balance := acc.balance - amount }) := by
  refine ⟨fun h => by simp [Pay, h], ?_, ?_, ?_⟩
  · intro h1 h2
    rw [findAccount_none_iff] at h2
    have hn : ¬ amount ≤ 0 := by omega
    simp [Pay, hn, h2]
  · intro acc h1 h2 h3
    rw [findAccount_some_iff] at h2
    have hn : ¬ amount ≤ 0 := by omega
    simp [Pay, hn, h2, h3]
  · intro acc h1 h2 h3
    rw [findAccount_some_iff] at h2
    have hn : ¬ amount ≤ 0 := by omega
    have hn2 : ¬ acc.balance < amount := by omega
    have hmain : Pay s accountID amount category paymentID =
        (.ok (⟨paymentID, accountID, amount, category, statusInProgress⟩ : Payment),
          { s with
            accounts := updateFirstAccount s.accounts accountID
              (fun a => { a with balance := a.balance - amount }),
            payments := s.payments ++
              [⟨paymentID, accountID, amount, category, statusInProgress⟩] }) := by
      simp [Pay, hn, h2, hn2]
    refine ⟨hmain, ?_⟩
    rw [hmain]
    rw [findAccount_some_iff]
    show (updateFirstAccount s.accounts accountID
      (fun a => { a with balance := a.balance - amount })).find?
        (fun a => a.id = accountID) = _
    rw [find_updateFirstAccount s.accounts accountID
      (fun a => { a with balance := a.balance - amount }) (fun a => rfl), h2]
    rfl

/-- Witness for C2: the four clauses exercised on a one-account service
with balance 3. -/
theorem C2_witness :
    (Pay ⟨1, [⟨1, chars "900", 3⟩], [], []⟩ 1 0 (chars "c") (chars "p") =
      (.error .amountMustBePositive, ⟨1, [⟨1, chars "900", 3⟩], [], []⟩)) ∧
    (Pay ⟨1, [⟨1, chars "900", 3⟩], [], []⟩ 2 1 (chars "c") (chars "p") =
      (.error .accountNotFound, ⟨1, [⟨1, chars "900", 3⟩], [], []⟩)) ∧
    (Pay ⟨1, [⟨1, chars "900", 3⟩], [], []⟩ 1 4 (chars "c") (chars "p") =
      (.error .notEnoughBalance, ⟨1, [⟨1, chars "900", 3⟩], [], []⟩)) ∧
    (Pay ⟨1, [⟨1, chars "900", 3⟩], [], []⟩ 1 2 (chars "c") (chars "p") =
      (.ok (⟨chars "p", 1, 2, chars "c", statusInProgress⟩ : Payment),
        ⟨1, [⟨1, chars "900", 1⟩],
          [⟨chars "p", 1, 2, chars "c", statusInProgress⟩], []⟩)) :=
  ⟨(C2_pay_contract ⟨1, [⟨1, chars "900", 3⟩], [], []⟩ 1 0 (chars "c") (chars "p")).1
      (by omega),
   (C2_pay_contract ⟨1, [⟨1, chars "900", 3⟩], [], []⟩ 2 1 (chars "c") (chars "p")).2.1
      (by omega) (by rfl),
   (C2_pay_contract ⟨1, [⟨1, chars "900", 3⟩], [], []⟩ 1 4 (chars "c") (chars "p")).2.2.1
      ⟨1, chars "900", 3⟩ (by omega) (by rfl) (by decide),
   by
    have := (C2_pay_contract ⟨1, [⟨1, chars "900", 3⟩], [], []⟩ 1 2 (chars "c")
      (chars "p")).2.2.2 ⟨1, chars "900", 3⟩ (by omega) (by rfl) (by decide)
    exact this.1⟩

/-- Witness for C7: a negative `Pay`, a negative `Deposit`, and a zero
`Deposit` on a one-account service. -/
theorem C7_witness :
    (Pay ⟨1, [⟨1, chars "900", 3⟩], [], []⟩ 1 (-2) (chars "c") (chars "p") =
      (.error .amountMustBePositive, ⟨1, [⟨1, chars "900", 3⟩], [], []⟩)) ∧
    (Deposit ⟨1, [⟨1, chars "900", 3⟩], [], []⟩ 1 (-2) =
      (.error .amountMustBePositive, ⟨1, [⟨1, chars "900", 3⟩], [], []⟩)) ∧
    (Deposit ⟨1, [⟨1, chars "900", 3⟩], [], []⟩ 1 0 =
      (.ok (), ⟨1, [⟨1, chars "900", 3⟩], [], []⟩)) :=
  ⟨(C7_amount_asymmetry ⟨1, [⟨1, chars "900", 3⟩], [], []⟩ 1 (-2) (chars "c")
      (chars "p")).1 (by omega),
   (C7_amount_asymmetry ⟨1, [⟨1, chars "900", 3⟩], [], []⟩ 1 (-2) (chars "c")
      (chars "p")).2.1 (by omega),
   (C7_amount_asymmetry ⟨1, [⟨1, chars "900", 3⟩], [], []⟩ 1 0 (chars "c")
      (chars "p")).2.2 ⟨1, chars "900", 3⟩ (by rfl)⟩

/-! ### Import operations never advance the account-ID counter (C10) -/

theorem importAccountRecords_nextID : ∀ (recs : List (List Char)) (s : Service),
    ((importAccountRecords s recs).2).nextAccountID = s.nextAccountID := by
  intro recs
  induction recs with
  | nil => intro s; rfl
  | cons r rest ih =>
    intro s
    simp only [importAccountRecords]
    cases hp : parseAccountA r with
    | none => rfl
    | some a => exact ih _

theorem importDumpAccounts_nextID : ∀ (recs : List (List Char)) (s : Service),
    ((importDumpAccounts s recs).2).nextAccountID = s.nextAccountID := by
  intro recs
  induction recs with
  | nil => intro s; rfl
  | cons r rest ih =>
    intro s
    simp only [importDumpAccounts]
    cases h0 : Atoi ((splitOnChar ';' r).getD 0 []) with
    | none => rfl
    | some id =>
      cases h2 : Atoi ((splitOnChar ';' r).getD 2 []) with
      | none => rfl
      | some balance =>
        dsimp only
        split
        · exact ih _
        · exact ih _

theorem importDumpPayments_nextID : ∀ (recs : List (List Char)) (s : Service),
    ((importDumpPayments s recs).2).nextAccountID = s.nextAccountID := by
  intro recs
  induction recs with
  | nil => intro s; rfl
  | cons r rest ih =>
    intro s
    simp only [importDumpPayments]
    cases h1 : Atoi ((splitOnChar ';' r).getD 1 []) with
    | none => rfl
    | some aid =>
      cases h2 : Atoi ((splitOnChar ';' r).getD 2 []) with
      | none => rfl
      | some amount =>
        dsimp only
        split
        · exact ih _
        · exact ih _

theorem importDumpFavorites_nextID : ∀ (recs : List (List Char)) (s : Service),
    ((importDumpFavorites s recs).2).nextAccountID = s.nextAccountID := by
  intro recs
  induction recs with
  | nil => intro s; rfl
  | cons r rest ih =>
    intro s
    simp only [importDumpFavorites]
    cases h1 : Atoi ((splitOnChar ';' r).getD 1 []) with
    | none => rfl
    | some aid =>
      cases h2 : Atoi ((splitOnChar ';' r).getD 2 []) with
      | none => rfl
      | some amount =>
        dsimp only
        split
        · exact ih _
        · exact ih _

theorem importStepAccounts_nextID (s : Service) (o : Option (List Char)) :
    ((importStepAccounts s o).2).nextAccountID = s.nextAccountID := by
  cases o with
  | none => rfl
  | some content => exact importDumpAccounts_nextID _ _

theorem importStepPayments_nextID (s : Service) (o : Option (List Char)) :
    ((importStepPayments s o).2).nextAccountID = s.nextAccountID := by
  cases o with
  | none => rfl
  | some content => exact importDumpPayments_nextID _ _

theorem importStepFavorites_nextID (s : Service) (o : Option (List Char)) :
    ((importStepFavorites s o).2).nextAccountID = s.nextAccountID := by
  cases o with
  | none => rfl
  | some content => exact importDumpFavorites_nextID _ _

theorem Import_nextID (s : Service) (dir : Dir) :
    ((Import s dir).2).nextAccountID = s.nextAccountID := by
  have e1 := importStepAccounts_nextID s dir.accountsDump
  unfold Import
  generalize importStepAccounts s dir.accountsDump = out1 at e1 ⊢
  obtain ⟨r1, s1⟩ := out1
  cases r1 with
  | error e => exact e1
  | ok u =>
    cases u
    dsimp only
    have e2 := importStepPayments_nextID s1 dir.paymentsDump
    generalize importStepPayments s1 dir.paymentsDump = out2 at e2 ⊢
    obtain ⟨r2, s2⟩ := out2
    cases r2 with
    | error e => exact e2.trans e1
    | ok u =>
      cases u
      dsimp only
      exact (importStepFavorites_nextID s2 dir.favoritesDump).trans (e2.trans e1)

theorem ImportFromFile_nextID (s : Service) (file : Option (List Char)) :
    ((ImportFromFile s file).2).nextAccountID = s.nextAccountID := by
  cases file with
  | none => rfl
  | some content => exact importAccountRecords_nextID _ _

/-- C10: neither import operation advances `nextAccountID`, and after
importing the account `1;x;5` into the empty service, registering a fresh
phone hands out ID 1 again — the collection then holds two accounts with
ID 1, so Account-ID uniqueness is violated at the public interface. -/
theorem C10_import_breaks_id_uniqueness :
    (∀ (s : Service) (file : Option (List Char)),
      ((ImportFromFile s file).2).nextAccountID = s.nextAccountID) ∧
    (∀ (s : Service) (dir : Dir),
      ((Import s dir).2).nextAccountID = s.nextAccountID) ∧
    (((RegisterAccount (ImportFromFile emptyService (some (chars "1;x;5|"))).2
        (chars "y")).2).accounts.map (fun a => a.id) = [1, 1] ∧
      ¬ (((RegisterAccount (ImportFromFile emptyService (some (chars "1;x;5|"))).2
        (chars "y")).2).accounts.map (fun a => a.id)).Nodup) :=
  ⟨ImportFromFile_nextID, Import_nextID, by decide, by decide⟩

/-! ### Format A import is not atomic (C6) -/

/-- The record loop of `ImportFromFile` on records that parse up to a bad
record: the parse error is returned and the accounts parsed from the good
prefix stay appended. -/
theorem importAccountRecords_partial :
    ∀ (good : List (List Char)) (s : Service) (bad : List Char) (rest : List (List Char)),
    (∀ r ∈ good, (parseAccountA r).isSome) → parseAccountA bad = none →
    importAccountRecords s (good ++ bad :: rest) =
      (.error .parseErr, { s with accounts := s.accounts ++ good.filterMap parseAccountA }) := by
  intro good
  induction good with
  | nil =>
    intro s bad rest _ hbad
    simp only [List.nil_append, importAccountRecords, hbad, List.filterMap_nil,
      List.append_nil]
  | cons g gs ih =>
    intro s bad rest hgood hbad
    obtain ⟨a, ha⟩ : ∃ a, parseAccountA g = some a :=
      Option.isSome_iff_exists.mp (hgood g (List.mem_cons_self _ _))
    rw [List.cons_append]
    simp only [importAccountRecords, ha]
    rw [ih _ bad rest (fun r hr => hgood r (List.mem_cons_of_mem _ hr)) hbad]
    simp [List.filterMap_cons, ha, List.append_assoc]

/-- C6: `ImportFromFile` is not atomic — on input whose records are
well-formed up to some position and carry a non-parsing ID or balance
there, it returns the parse error while keeping the accounts appended from
the good prefix. -/
theorem C6_import_not_atomic (s : Service) (content : List Char)
    (good : List (List Char)) (bad : List Char) (rest : List (List Char))
    (hsplit : (splitOnChar '|' content).dropLast = good ++ bad :: rest)
    (hgood : ∀ r ∈ good, (parseAccountA r).isSome)
    (hbad : parseAccountA bad = none) :
    ImportFromFile s (some content) =
      (.error .parseErr,
        { s with accounts := s.accounts ++ good.filterMap parseAccountA }) := by
  show importAccountRecords s ((splitOnChar '|' content).dropLast) = _
  rw [hsplit]
  exact importAccountRecords_partial good s bad rest hgood hbad

/-- Witness for C6: the middle record of `1;a;5|x;b;z|2;c;7|` has a
non-integer ID; the import fails with the parse error and the account
parsed from the first record stays. -/
theorem C6_witness :
    ImportFromFile emptyService (some (chars "1;a;5|x;b;z|2;c;7|")) =
      (.error .parseErr, { emptyService with accounts := [⟨1, chars "a", 5⟩] }) := by
  have h := C6_import_not_atomic emptyService (chars "1;a;5|x;b;z|2;c;7|")
    [chars "1;a;5"] (chars "x;b;z") [chars "2;c;7"] (by decide) (by decide) (by decide)
  simpa using h

/-! ### Format A round-trip (C5) -/

theorem chars_semi : chars ";" = [';'] := rfl

theorem chars_pipe : chars "|" = ['|'] := rfl

theorem chars_nl : chars "\n" = ['\n'] := rfl

theorem recordA_assoc (a : Account) :
    recordA a = Itoa a.id ++ ';' :: (a.phone ++ ';' :: Itoa a.balance) := by
  unfold recordA
  rw [chars_semi]
  simp [List.append_assoc]

theorem splitOnChar_recordA (a : Account) (h : ';' ∉ a.phone) :
    splitOnChar ';' (recordA a) = [Itoa a.id, a.phone, Itoa a.balance] := by
  rw [recordA_assoc, splitOnChar_append ';' _ _ (semi_not_mem_Itoa a.id),
    splitOnChar_append ';' _ _ h,
    splitOnChar_no_sep ';' _ (semi_not_mem_Itoa a.balance)]

theorem pipe_not_mem_recordA (a : Account) (h : '|' ∉ a.phone) : '|' ∉ recordA a := by
  rw [recordA_assoc]
  intro hmem
  rcases List.mem_append.mp hmem with h1 | h1
  · exact pipe_not_mem_Itoa a.id h1
  · rcases List.mem_cons.mp h1 with h2 | h2
    · exact absurd h2 (by decide)
    · rcases List.mem_append.mp h2 with h3 | h3
      · exact h h3
      · rcases List.mem_cons.mp h3 with h4 | h4
        · exact absurd h4 (by decide)
        · exact pipe_not_mem_Itoa a.balance h4

theorem parseAccountA_recordA (a : Account) (h : ';' ∉ a.phone) :
    parseAccountA (recordA a) = some a := by
  unfold parseAccountA
  rw [splitOnChar_recordA a h]
  simp [Atoi_Itoa]

/-- On a well-formed account list, the import loop of `ImportFromFile`
appends every serialized account, reconstructed exactly. -/
theorem importAccountRecords_append_all :
    ∀ (accs : List Account) (t : Service), (∀ a ∈ accs, ';' ∉ a.phone) →
    importAccountRecords t (accs.map recordA) =
      (.ok (), { t with accounts := t.accounts ++ accs }) := by
  intro accs
  induction accs with
  | nil =>
    intro t _
    simp [importAccountRecords]
  | cons a rest ih =>
    intro t h
    have hp := parseAccountA_recordA a (h a (List.mem_cons_self _ _))
    simp only [List.map_cons, importAccountRecords, hp]
    rw [ih _ (fun x hx => h x (List.mem_cons_of_mem _ hx))]
    simp [List.append_assoc]

/-- Splitting the exported Format A content on `|` and dropping the final
empty segment recovers exactly one record per account. -/
theorem ExportToFile_records (s : Service) (h : ∀ a ∈ s.accounts, '|' ∉ a.phone) :
    (splitOnChar '|' (ExportToFile s)).dropLast = s.accounts.map recordA := by
  unfold ExportToFile
  rw [chars_pipe]
  have hmap : s.accounts.map (fun a => recordA a ++ ['|']) =
      (s.accounts.map recordA).map (fun r => r ++ ['|']) := by
    rw [List.map_map]
    rfl
  rw [hmap, splitOnChar_join '|' _ ?_, List.dropLast_concat]
  intro r hr
  obtain ⟨a, ha, rfl⟩ := List.mem_map.mp hr
  exact pipe_not_mem_recordA a (h a ha)

/-- C5 (amended with the delimiter restriction): for accounts whose phones
contain neither `;` nor `|`, exporting with Format A and importing the
produced content appends exact copies of the accounts in order — into the
empty service this reproduces the collection, into a service already
holding the accounts it duplicates them (append semantics, no
duplicate-ID check). -/
theorem C5_format_a_roundtrip (s : Service)
    (h : ∀ a ∈ s.accounts, ';' ∉ a.phone ∧ '|' ∉ a.phone) :
    (∀ t : Service, ImportFromFile t (some (ExportToFile s)) =
      (.ok (), { t with accounts := t.accounts ++ s.accounts })) ∧
    (ImportFromFile emptyService (some (ExportToFile s)) =
      (.ok (), { emptyService with accounts := s.accounts })) ∧
    (ImportFromFile s (some (ExportToFile s)) =
      (.ok (), { s with accounts := s.accounts ++ s.accounts })) := by
  have main : ∀ t : Service, ImportFromFile t (some (ExportToFile s)) =
      (.ok (), { t with accounts := t.accounts ++ s.accounts }) := by
    intro t
    show importAccountRecords t ((splitOnChar '|' (ExportToFile s)).dropLast) = _
    rw [ExportToFile_records s (fun a ha => (h a ha).2)]
    exact importAccountRecords_append_all _ _ (fun a ha => (h a ha).1)
  refine ⟨main, ?_, main s⟩
  have he := main emptyService
  simpa using he

/-- A two-account service with delimiter-free phones. -/
def twoAccService : Service :=
  ⟨2, [⟨1, chars "900", 5⟩, ⟨2, chars "901", -7⟩], [], []⟩

/-- Witness for C5: the round-trip through the empty service reproduces the
two accounts. -/
theorem C5_witness :
    ImportFromFile emptyService (some (ExportToFile twoAccService)) =
      (.ok (), { emptyService with accounts := twoAccService.accounts }) :=
  (C5_format_a_roundtrip twoAccService (by decide)).2.1

/-- A service whose only account has a phone containing the `;` delimiter. -/
def badPhoneService : Service := ⟨1, [⟨1, chars "a;b", 5⟩], [], []⟩

/-- Counterexample for C5 as stated: with a phone containing `;`, the
round-trip through the empty service does not reproduce the
ID/Phone/Balance triples (the import aborts with a parse error, leaving no
accounts). -/
theorem C5_counterexample :
    ((ImportFromFile emptyService (some (ExportToFile badPhoneService))).2).accounts.map
        (fun a => (a.id, a.phone, a.balance)) ≠
      badPhoneService.accounts.map (fun a => (a.id, a.phone, a.balance)) := by
  decide

/-! ### Format B round-trip (C4) -/

theorem not_mem_append_cons {c sep : Char} {l1 l2 : List Char}
    (h1 : c ∉ l1) (h2 : c ≠ sep) (h3 : c ∉ l2) : c ∉ l1 ++ sep :: l2 := by
  intro hmem
  rcases List.mem_append.mp hmem with h | h
  · exact h1 h
  · rcases List.mem_cons.mp h with h | h
    · exact h2 h
    · exact h3 h

theorem nl_not_mem_recordA (a : Account) (h : '\n' ∉ a.phone) : '\n' ∉ recordA a := by
  rw [recordA_assoc]
  exact not_mem_append_cons (newline_not_mem_Itoa _) (by decide)
    (not_mem_append_cons h (by decide) (newline_not_mem_Itoa _))

theorem recordBP_assoc (p : Payment) :
    recordBP p = p.id ++ ';' :: (Itoa p.accountID ++ ';' :: (Itoa p.amount ++ ';' ::
      (p.category ++ ';' :: p.status))) := by
  unfold recordBP
  rw [chars_semi]
  simp [List.append_assoc]

theorem splitOnChar_recordBP (p : Payment) (hid : ';' ∉ p.id) (hcat : ';' ∉ p.category)
    (hst : ';' ∉ p.status) :
    splitOnChar ';' (recordBP p) =
      [p.id, Itoa p.accountID, Itoa p.amount, p.category, p.status] := by
  rw [recordBP_assoc, splitOnChar_append ';' _ _ hid,
    splitOnChar_append ';' _ _ (semi_not_mem_Itoa _),
    splitOnChar_append ';' _ _ (semi_not_mem_Itoa _),
    splitOnChar_append ';' _ _ hcat,
    splitOnChar_no_sep ';' _ hst]

theorem nl_not_mem_recordBP (p : Payment) (hid : '\n' ∉ p.id) (hcat : '\n' ∉ p.category)
    (hst : '\n' ∉ p.status) : '\n' ∉ recordBP p := by
  rw [recordBP_assoc]
  exact not_mem_append_cons hid (by decide)
    (not_mem_append_cons (newline_not_mem_Itoa _) (by decide)
      (not_mem_append_cons (newline_not_mem_Itoa _) (by decide)
        (not_mem_append_cons hcat (by decide) hst)))

theorem recordBF_assoc (f : Favorite) :
    recordBF f = f.id ++ ';' :: (Itoa f.accountID ++ ';' :: (Itoa f.amount ++ ';' ::
      f.category)) := by
  unfold recordBF
  rw [chars_semi]
  simp [List.append_assoc]

theorem splitOnChar_recordBF (f : Favorite) (hid : ';' ∉ f.id) (hcat : ';' ∉ f.category) :
    splitOnChar ';' (recordBF f) = [f.id, Itoa f.accountID, Itoa f.amount, f.category] := by
  rw [recordBF_assoc, splitOnChar_append ';' _ _ hid,
    splitOnChar_append ';' _ _ (semi_not_mem_Itoa _),
    splitOnChar_append ';' _ _ (semi_not_mem_Itoa _),
    splitOnChar_no_sep ';' _ hcat]

theorem nl_not_mem_recordBF (f : Favorite) (hid : '\n' ∉ f.id) (hcat : '\n' ∉ f.category) :
    '\n' ∉ recordBF f := by
  rw [recordBF_assoc]
  exact not_mem_append_cons hid (by decide)
    (not_mem_append_cons (newline_not_mem_Itoa _) (by decide)
      (not_mem_append_cons (newline_not_mem_Itoa _) (by decide) hcat))

/-- Splitting a dump built of `\n`-terminated records recovers the
records. -/
theorem dumpLines_records (recs : List (List Char)) (h : ∀ r ∈ recs, '\n' ∉ r) :
    dumpLines ((recs.map (fun r => r ++ ['\n'])).flatten) = recs := by
  unfold dumpLines
  rw [splitOnChar_join '\n' recs h, List.dropLast_concat]

/-- Overwriting the matching accounts' phone and balance preserves the ID
sequence. -/
theorem mergeAccounts_ids (l : List Account) (pid : Int) (ph : List Char) (bal : Int) :
    (l.map (fun v => if v.id = pid then { v with phone := ph, balance := bal } else v)).map
      (fun a => a.id) = l.map (fun a => a.id) := by
  induction l with
  | nil => rfl
  | cons a rest ih =>
    simp only [List.map_cons, ih]
    congr 1
    by_cases hv : a.id = pid
    · rw [if_pos hv]
    · rw [if_neg hv]

/-- Overwriting the matching payments' fields preserves the ID sequence. -/
theorem mergePayments_ids (l : List Payment) (pid : List Char) (aid amt : Int)
    (cat st : List Char) :
    (l.map (fun v => if v.id = pid then
        { v with accountID := aid, amount := amt, category := cat, status := st }
      else v)).map (fun p => p.id) = l.map (fun p => p.id) := by
  induction l with
  | nil => rfl
  | cons p rest ih =>
    simp only [List.map_cons, ih]
    congr 1
    by_cases hv : p.id = pid
    · rw [if_pos hv]
    · rw [if_neg hv]

/-- Overwriting the matching favorites' fields preserves the ID sequence. -/
theorem mergeFavorites_ids (l : List Favorite) (pid : List Char) (aid amt : Int)
    (cat : List Char) :
    (l.map (fun v => if v.id = pid then
        { v with accountID := aid, amount := amt, category := cat }
      else v)).map (fun f => f.id) = l.map (fun f => f.id) := by
  induction l with
  | nil => rfl
  | cons f rest ih =>
    simp only [List.map_cons, ih]
    congr 1
    by_cases hv : f.id = pid
    · rw [if_pos hv]
    · rw [if_neg hv]

/-- The merge loop for accounts: when every record parses and its ID is
already present, nothing is appended — the ID sequence (hence the size) is
preserved and the other collections are untouched. -/
theorem importDumpAccounts_merge :
    ∀ (recs : List (List Char)) (s : Service),
    (∀ r ∈ recs, ∃ id bal, Atoi ((splitOnChar ';' r).getD 0 []) = some id ∧
        Atoi ((splitOnChar ';' r).getD 2 []) = some bal ∧
        id ∈ s.accounts.map (fun a => a.id)) →
    ∃ s', importDumpAccounts s recs = (.ok (), s') ∧
      s'.accounts.map (fun a => a.id) = s.accounts.map (fun a => a.id) ∧
      s'.payments = s.payments ∧ s'.favorites = s.favorites := by
  intro recs
  induction recs with
  | nil => intro s _; exact ⟨s, rfl, rfl, rfl, rfl⟩
  | cons r rest ih =>
    intro s h
    obtain ⟨id, bal, h0, h2, hmem⟩ := h r (List.mem_cons_self _ _)
    have hany : s.accounts.any (fun v => v.id = id) = true := by
      rw [List.any_eq_true]
      obtain ⟨a, ha, haid⟩ := List.mem_map.mp hmem
      exact ⟨a, ha, by simp [haid]⟩
    have hmid := mergeAccounts_ids s.accounts id ((splitOnChar ';' r).getD 1 []) bal
    have hrest : ∀ r2 ∈ rest, ∃ id2 bal2,
        Atoi ((splitOnChar ';' r2).getD 0 []) = some id2 ∧
        Atoi ((splitOnChar ';' r2).getD 2 []) = some bal2 ∧
        id2 ∈ (s.accounts.map (fun v =>
          if v.id = id then { v with phone := (splitOnChar ';' r).getD 1 [], balance := bal }
          else v)).map (fun a => a.id) := by
      intro r2 hr2
      obtain ⟨id2, bal2, g0, g2, gmem⟩ := h r2 (List.mem_cons_of_mem _ hr2)
      exact ⟨id2, bal2, g0, g2, by rw [hmid]; exact gmem⟩
    obtain ⟨s', he, hids, hpay, hfav⟩ := ih
      { s with accounts := s.accounts.map (fun v =>
          if v.id = id then { v with phone := (splitOnChar ';' r).getD 1 [], balance := bal }
          else v) } hrest
    simp only [importDumpAccounts, h0, h2]
    rw [if_pos hany]
    exact ⟨s', he, by rw [hids]; exact hmid, hpay, hfav⟩

/-- The merge loop for payments: same-ID records overwrite in place,
preserving the ID sequence and the other collections. -/
theorem importDumpPayments_merge :
    ∀ (recs : List (List Char)) (s : Service),
    (∀ r ∈ recs, (∃ aid, Atoi ((splitOnChar ';' r).getD 1 []) = some aid) ∧
        (∃ amt, Atoi ((splitOnChar ';' r).getD 2 []) = some amt) ∧
        (splitOnChar ';' r).getD 0 [] ∈ s.payments.map (fun p => p.id)) →
    ∃ s', importDumpPayments s recs = (.ok (), s') ∧
      s'.payments.map (fun p => p.id) = s.payments.map (fun p => p.id) ∧
      s'.accounts = s.accounts ∧ s'.favorites = s.favorites := by
  intro recs
  induction recs with
  | nil => intro s _; exact ⟨s, rfl, rfl, rfl, rfl⟩
  | cons r rest ih =>
    intro s h
    obtain ⟨⟨aid, h1⟩, ⟨amt, h2⟩, hmem⟩ := h r (List.mem_cons_self _ _)
    have hany : s.payments.any
        (fun v => v.id = (splitOnChar ';' r).getD 0 []) = true := by
      rw [List.any_eq_true]
      obtain ⟨p, hp, hpid⟩ := List.mem_map.mp hmem
      exact ⟨p, hp, by simp [hpid]⟩
    have hmid := mergePayments_ids s.payments ((splitOnChar ';' r).getD 0 []) aid amt
      ((splitOnChar ';' r).getD 3 []) ((splitOnChar ';' r).getD 4 [])
    have hrest : ∀ r2 ∈ rest,
        (∃ aid2, Atoi ((splitOnChar ';' r2).getD 1 []) = some aid2) ∧
        (∃ amt2, Atoi ((splitOnChar ';' r2).getD 2 []) = some amt2) ∧
        (splitOnChar ';' r2).getD 0 [] ∈ (s.payments.map (fun v =>
          if v.id = (splitOnChar ';' r).getD 0 [] then
            { v with accountID := aid, amount := amt,
                     category := (splitOnChar ';' r).getD 3 [],
                     status := (splitOnChar ';' r).getD 4 [] }
          else v)).map (fun p => p.id) := by
      intro r2 hr2
      obtain ⟨g1, g2, gmem⟩ := h r2 (List.mem_cons_of_mem _ hr2)
      exact ⟨g1, g2, by rw [hmid]; exact gmem⟩
    obtain ⟨s', he, hids, hacc, hfav⟩ := ih
      { s with payments := s.payments.map (fun v =>
          if v.id = (splitOnChar ';' r).getD 0 [] then
            { v with accountID := aid, amount := amt,
                     category := (splitOnChar ';' r).getD 3 [],
                     status := (splitOnChar ';' r).getD 4 [] }
          else v) } hrest
    simp only [importDumpPayments, h1, h2]
    rw [if_pos hany]
    exact ⟨s', he, by rw [hids]; exact hmid, hacc, hfav⟩

/-- The merge loop for favorites: same-ID records overwrite in place,
preserving the ID sequence and the other collections. -/
theorem importDumpFavorites_merge :
    ∀ (recs : List (List Char)) (s : Service),
    (∀ r ∈ recs, (∃ aid, Atoi ((splitOnChar ';' r).getD 1 []) = some aid) ∧
        (∃ amt, Atoi ((splitOnChar ';' r).getD 2 []) = some amt) ∧
        (splitOnChar ';' r).getD 0 [] ∈ s.favorites.map (fun f => f.id)) →
    ∃ s', importDumpFavorites s recs = (.ok (), s') ∧
      s'.favorites.map (fun f => f.id) = s.favorites.map (fun f => f.id) ∧
      s'.accounts = s.accounts ∧ s'.payments = s.payments := by
  intro recs
  induction recs with
  | nil => intro s _; exact ⟨s, rfl, rfl, rfl, rfl⟩
  | cons r rest ih =>
    intro s h
    obtain ⟨⟨aid, h1⟩, ⟨amt, h2⟩, hmem⟩ := h r (List.mem_cons_self _ _)
    have hany : s.favorites.any
        (fun v => v.id = (splitOnChar ';' r).getD 0 []) = true := by
      rw [List.any_eq_true]
      obtain ⟨f, hf, hfid⟩ := List.mem_map.mp hmem
      exact ⟨f, hf, by simp [hfid]⟩
    have hmid := mergeFavorites_ids s.favorites ((splitOnChar ';' r).getD 0 []) aid amt
      ((splitOnChar ';' r).getD 3 [])
    have hrest : ∀ r2 ∈ rest,
        (∃ aid2, Atoi ((splitOnChar ';' r2).getD 1 []) = some aid2) ∧
        (∃ amt2, Atoi ((splitOnChar ';' r2).getD 2 []) = some amt2) ∧
        (splitOnChar ';' r2).getD 0 [] ∈ (s.favorites.map (fun v =>
          if v.id = (splitOnChar ';' r).getD 0 [] then
            { v with accountID := aid, amount := amt,
                     category := (splitOnChar ';' r).getD 3 [] }
          else v)).map (fun f => f.id) := by
      intro r2 hr2
      obtain ⟨g1, g2, gmem⟩ := h r2 (List.mem_cons_of_mem _ hr2)
      exact ⟨g1, g2, by rw [hmid]; exact gmem⟩
    obtain ⟨s', he, hids, hacc, hpay⟩ := ih
      { s with favorites := s.favorites.map (fun v =>
          if v.id = (splitOnChar ';' r).getD 0 [] then
            { v with accountID := aid, amount := amt,
                     category := (splitOnChar ';' r).getD 3 [] }
          else v) } hrest
    simp only [importDumpFavorites, h1, h2]
    rw [if_pos hany]
    exact ⟨s', he, by rw [hids]; exact hmid, hacc, hpay⟩

/-- The accounts phase of importing a same-instance export: skip when no
file was written, otherwise merge every record into the account that
produced it. -/
theorem importStepAccounts_roundtrip (s : Service)
    (hacc : ∀ a ∈ s.accounts, ';' ∉ a.phone ∧ '\n' ∉ a.phone) :
    ∃ s1, importStepAccounts s (Export s).accountsDump = (.ok (), s1) ∧
      s1.accounts.map (fun a => a.id) = s.accounts.map (fun a => a.id) ∧
      s1.payments = s.payments ∧ s1.favorites = s.favorites := by
  by_cases he : s.accounts.isEmpty
  · refine ⟨s, ?_, rfl, rfl, rfl⟩
    have hdump : (Export s).accountsDump = none := by simp [Export, he]
    rw [hdump]
    rfl
  · have hdump : (Export s).accountsDump =
        some ((s.accounts.map (fun a => recordA a ++ chars "\n")).flatten) := by
      simp [Export, he]
    rw [hdump]
    show ∃ s1, importDumpAccounts s
      (dumpLines ((s.accounts.map (fun a => recordA a ++ chars "\n")).flatten)) = _ ∧ _
    have hmap : s.accounts.map (fun a => recordA a ++ chars "\n") =
        (s.accounts.map recordA).map (fun r => r ++ ['\n']) := by
      rw [List.map_map]
      rfl
    have hlines : dumpLines ((s.accounts.map (fun a => recordA a ++ chars "\n")).flatten) =
        s.accounts.map recordA := by
      rw [hmap]
      refine dumpLines_records _ ?_
      intro r hr
      obtain ⟨a, ha, rfl⟩ := List.mem_map.mp hr
      exact nl_not_mem_recordA a (hacc a ha).2
    rw [hlines]
    apply importDumpAccounts_merge
    intro r hr
    obtain ⟨a, ha, rfl⟩ := List.mem_map.mp hr
    refine ⟨a.id, a.balance, ?_, ?_, List.mem_map.mpr ⟨a, ha, rfl⟩⟩
    · rw [splitOnChar_recordA a (hacc a ha).1]
      exact Atoi_Itoa a.id
    · rw [splitOnChar_recordA a (hacc a ha).1]
      exact Atoi_Itoa a.balance

/-- The payments phase of importing a same-instance export, run on the
state left by the accounts phase. -/
theorem importStepPayments_roundtrip (s s1 : Service)
    (hpay : ∀ p ∈ s.payments, (';' ∉ p.id ∧ '\n' ∉ p.id) ∧
        (';' ∉ p.category ∧ '\n' ∉ p.category) ∧ (';' ∉ p.status ∧ '\n' ∉ p.status))
    (heq : s1.payments = s.payments) :
    ∃ s2, importStepPayments s1 (Export s).paymentsDump = (.ok (), s2) ∧
      s2.payments.map (fun p => p.id) = s1.payments.map (fun p => p.id) ∧
      s2.accounts = s1.accounts ∧ s2.favorites = s1.favorites := by
  by_cases he : s.payments.isEmpty
  · refine ⟨s1, ?_, rfl, rfl, rfl⟩
    have hdump : (Export s).paymentsDump = none := by simp [Export, he]
    rw [hdump]
    rfl
  · have hdump : (Export s).paymentsDump =
        some ((s.payments.map (fun p => recordBP p ++ chars "\n")).flatten) := by
      simp [Export, he]
    rw [hdump]
    show ∃ s2, importDumpPayments s1
      (dumpLines ((s.payments.map (fun p => recordBP p ++ chars "\n")).flatten)) = _ ∧ _
    have hmap : s.payments.map (fun p => recordBP p ++ chars "\n") =
        (s.payments.map recordBP).map (fun r => r ++ ['\n']) := by
      rw [List.map_map]
      rfl
    have hlines : dumpLines ((s.payments.map (fun p => recordBP p ++ chars "\n")).flatten) =
        s.payments.map recordBP := by
      rw [hmap]
      refine dumpLines_records _ ?_
      intro r hr
      obtain ⟨p, hp, rfl⟩ := List.mem_map.mp hr
      exact nl_not_mem_recordBP p (hpay p hp).1.2 (hpay p hp).2.1.2 (hpay p hp).2.2.2
    rw [hlines]
    apply importDumpPayments_merge
    intro r hr
    obtain ⟨p, hp, rfl⟩ := List.mem_map.mp hr
    have hsplit := splitOnChar_recordBP p (hpay p hp).1.1 (hpay p hp).2.1.1 (hpay p hp).2.2.1
    refine ⟨⟨p.accountID, ?_⟩, ⟨p.amount, ?_⟩, ?_⟩
    · rw [hsplit]
      exact Atoi_Itoa p.accountID
    · rw [hsplit]
      exact Atoi_Itoa p.amount
    · rw [hsplit, heq]
      exact List.mem_map.mpr ⟨p, hp, rfl⟩

/-- The favorites phase of importing a same-instance export, run on the
state left by the payments phase. -/
theorem importStepFavorites_roundtrip (s s2 : Service)
    (hfav : ∀ f ∈ s.favorites, (';' ∉ f.id ∧ '\n' ∉ f.id) ∧
        (';' ∉ f.category ∧ '\n' ∉ f.category))
    (heq : s2.favorites = s.favorites) :
    ∃ s3, importStepFavorites s2 (Export s).favoritesDump = (.ok (), s3) ∧
      s3.favorites.map (fun f => f.id) = s2.favorites.map (fun f => f.id) ∧
      s3.accounts = s2.accounts ∧ s3.payments = s2.payments := by
  by_cases he : s.favorites.isEmpty
  · refine ⟨s2, ?_, rfl, rfl, rfl⟩
    have hdump : (Export s).favoritesDump = none := by simp [Export, he]
    rw [hdump]
    rfl
  · have hdump : (Export s).favoritesDump =
        some ((s.favorites.map (fun f => recordBF f ++ chars "\n")).flatten) := by
      simp [Export, he]
    rw [hdump]
    show ∃ s3, importDumpFavorites s2
      (dumpLines ((s.favorites.map (fun f => recordBF f ++ chars "\n")).flatten)) = _ ∧ _
    have hmap : s.favorites.map (fun f => recordBF f ++ chars "\n") =
        (s.favorites.map recordBF).map (fun r => r ++ ['\n']) := by
      rw [List.map_map]
      rfl
    have hlines : dumpLines ((s.favorites.map (fun f => recordBF f ++ chars "\n")).flatten) =
        s.favorites.map recordBF := by
      rw [hmap]
      refine dumpLines_records _ ?_
      intro r hr
      obtain ⟨f, hf, rfl⟩ := List.mem_map.mp hr
      exact nl_not_mem_recordBF f (hfav f hf).1.2 (hfav f hf).2.2
    rw [hlines]
    apply importDumpFavorites_merge
    intro r hr
    obtain ⟨f, hf, rfl⟩ := List.mem_map.mp hr
    have hsplit := splitOnChar_recordBF f (hfav f hf).1.1 (hfav f hf).2.1
    refine ⟨⟨f.accountID, ?_⟩, ⟨f.amount, ?_⟩, ?_⟩
    · rw [hsplit]
      exact Atoi_Itoa f.accountID
    · rw [hsplit]
      exact Atoi_Itoa f.amount
    · rw [hsplit, heq]
      exact List.mem_map.mpr ⟨f, hf, rfl⟩

/-- C4 (amended with the delimiter restriction): a missing dump file is
silently skipped (importing an empty directory is a no-op), and — provided
no serialized string field contains `;` or a newline — running `Export`
followed by `Import` on the same service instance succeeds and leaves the
sizes of all three collections unchanged (every record merges into the
entity that produced it; nothing is appended). -/
theorem C4_format_b_roundtrip (s : Service)
    (hacc : ∀ a ∈ s.accounts, ';' ∉ a.phone ∧ '\n' ∉ a.phone)
    (hpay : ∀ p ∈ s.payments, (';' ∉ p.id ∧ '\n' ∉ p.id) ∧
        (';' ∉ p.category ∧ '\n' ∉ p.category) ∧ (';' ∉ p.status ∧ '\n' ∉ p.status))
    (hfav : ∀ f ∈ s.favorites, (';' ∉ f.id ∧ '\n' ∉ f.id) ∧
        (';' ∉ f.category ∧ '\n' ∉ f.category)) :
    Import s emptyDir = (.ok (), s) ∧
    ∃ s', Import s (Export s) = (.ok (), s') ∧
      s'.accounts.length = s.accounts.length ∧
      s'.payments.length = s.payments.length ∧
      s'.favorites.length = s.favorites.length := by
  refine ⟨rfl, ?_⟩
  obtain ⟨s1, e1, ids1, pay1, fav1⟩ := importStepAccounts_roundtrip s hacc
  obtain ⟨s2, e2, ids2, acc2, fav2⟩ := importStepPayments_roundtrip s s1 hpay pay1
  obtain ⟨s3, e3, ids3, acc3, pay3⟩ :=
    importStepFavorites_roundtrip s s2 hfav (fav2.trans fav1)
  have hlen1 : s1.accounts.length = s.accounts.length := by
    have := congrArg List.length ids1
    simpa using this
  have hlen2 : s2.payments.length = s1.payments.length := by
    have := congrArg List.length ids2
    simpa using this
  have hlen3 : s3.favorites.length = s2.favorites.length := by
    have := congrArg List.length ids3
    simpa using this
  refine ⟨s3, ?_, ?_, ?_, ?_⟩
  · simp only [Import, e1, e2, e3]
  · rw [acc3, acc2, hlen1]
  · rw [pay3, hlen2, pay1]
  · rw [hlen3, fav2, fav1]

/-- A service whose three collections are delimiter-free. -/
def cleanService : Service :=
  ⟨2, [⟨1, chars "900", 5⟩, ⟨2, chars "901", 7⟩],
   [⟨chars "p1", 1, 3, chars "c", statusInProgress⟩],
   [⟨chars "f1", 1, chars "nm", 3, chars "c"⟩]⟩

/-- Witness for C4: on the clean two-account service the missing-file skip
and the same-instance round-trip keep the collection sizes (2, 1, 1). -/
theorem C4_witness :
    Import cleanService emptyDir = (.ok (), cleanService) ∧
    ∃ s', Import cleanService (Export cleanService) = (.ok (), s') ∧
      s'.accounts.length = 2 ∧ s'.payments.length = 1 ∧ s'.favorites.length = 1 := by
  obtain ⟨hskip, s', he, h1, h2, h3⟩ :=
    C4_format_b_roundtrip cleanService (by decide) (by decide) (by decide)
  exact ⟨hskip, s', he, h1, h2, h3⟩

/-- A service whose only payment has an ID containing the `;` delimiter. -/
def badPayService : Service :=
  ⟨0, [], [⟨chars "x;3;4", 1, 5, chars "c", chars "OK"⟩], []⟩

/-- Counterexample for C4 as stated: exporting then importing the same
instance whose payment ID contains `;` APPENDS a new payment (the split
record's ID field `x` matches nothing), growing the payments collection
from 1 to 2. -/
theorem C4_counterexample :
    ((Import badPayService (Export badPayService)).2).payments.length = 2 ∧
    badPayService.payments.length = 1 := by
  decide

/-! ### Balance accounting over Pay/Deposit/Reject sequences (C1) -/

/-- The accounting invariant: on a service holding exactly one account, any
sequence of Pay/Deposit/Reject operations leaves one account with the same
ID and phone, whose balance moved by `deposited - paid + refunded` of the
trace (`runOps`'s sums over the successful operations, each successful
Reject call counted individually — so a double Reject refunds twice). -/
theorem runOps_single_account :
    ∀ (ops : List Op) (s : Service) (acc : Account), s.accounts = [acc] →
    ∃ acc', (runOps s ops).1.accounts = [acc'] ∧ acc'.id = acc.id ∧
      acc'.phone = acc.phone ∧
      acc'.balance = acc.balance + (runOps s ops).2.1 - (runOps s ops).2.2.1 +
        (runOps s ops).2.2.2 := by
  intro ops
  induction ops with
  | nil =>
    intro s acc h
    exact ⟨acc, h, rfl, rfl, by simp [runOps]⟩
  | cons op rest ih =>
    intro s acc h
    cases op with
    | pay aid amount cat pid =>
      by_cases h1 : amount ≤ 0
      · have hout : Pay s aid amount cat pid = (.error .amountMustBePositive, s) := by
          simp [Pay, h1]
        simp only [runOps, hout]
        obtain ⟨acc', e1, e2, e3, e4⟩ := ih s acc h
        exact ⟨acc', e1, e2, e3, by omega⟩
      · by_cases h2 : acc.id = aid
        · have hfind : s.accounts.find? (fun a => a.id = aid) = some acc := by
            rw [h]
            simp [h2]
          by_cases h3 : acc.balance < amount
          · have hout : Pay s aid amount cat pid = (.error .notEnoughBalance, s) := by
              simp [Pay, h1, hfind, h3]
            simp only [runOps, hout]
            obtain ⟨acc', e1, e2, e3, e4⟩ := ih s acc h
            exact ⟨acc', e1, e2, e3, by omega⟩
          · have hout : Pay s aid amount cat pid =
                (.ok (⟨pid, aid, amount, cat, statusInProgress⟩ : Payment),
                  { s with
                    accounts := updateFirstAccount s.accounts aid
                      (fun a => { a with balance := a.balance - amount }),
                    payments := s.payments ++
                      [⟨pid, aid, amount, cat, statusInProgress⟩] }) := by
              simp [Pay, h1, hfind, h3]
            have haccs : (Pay s aid amount cat pid).2.accounts =
                [{ acc with balance := acc.balance - amount }] := by
              rw [hout, h]
              simp [updateFirstAccount, h2]
            simp only [runOps, hout]
            obtain ⟨acc', e1, e2, e3, e4⟩ :=
              ih (Pay s aid amount cat pid).2 { acc with balance := acc.balance - amount }
                haccs
            rw [hout] at e1 e4
            dsimp only at e1 e4
            exact ⟨acc', e1, e2, e3, by omega⟩
        · have hfind : s.accounts.find? (fun a => a.id = aid) = none := by
            rw [h]
            simp [h2]
          have hout : Pay s aid amount cat pid = (.error .accountNotFound, s) := by
            simp [Pay, h1, hfind]
          simp only [runOps, hout]
          obtain ⟨acc', e1, e2, e3, e4⟩ := ih s acc h
          exact ⟨acc', e1, e2, e3, by omega⟩
    | deposit aid amount =>
      by_cases h1 : amount < 0
      · have hout : Deposit s aid amount = (.error .amountMustBePositive, s) := by
          simp [Deposit, h1]
        simp only [runOps, hout]
        obtain ⟨acc', e1, e2, e3, e4⟩ := ih s acc h
        exact ⟨acc', e1, e2, e3, by omega⟩
      · by_cases h2 : acc.id = aid
        · have hfind : FindAccountByID s aid = .ok acc := by
            unfold FindAccountByID
            rw [h]
            simp [h2]
          have hout : Deposit s aid amount =
              (.ok (), { s with accounts := (updateFirstAccount s.accounts aid
                (fun a => { a with balance := a.balance + amount })) }) := by
            simp [Deposit, h1, hfind]
          have haccs : (Deposit s aid amount).2.accounts =
              [{ acc with balance := acc.balance + amount }] := by
            rw [hout, h]
            simp [updateFirstAccount, h2]
          simp only [runOps, hout]
          obtain ⟨acc', e1, e2, e3, e4⟩ :=
            ih (Deposit s aid amount).2 { acc with balance := acc.balance + amount } haccs
          rw [hout] at e1 e4
          dsimp only at e1 e4
          exact ⟨acc', e1, e2, e3, by omega⟩
        · have hfind : FindAccountByID s aid = .error .accountNotFound := by
            unfold FindAccountByID
            rw [h]
            simp [h2]
          have hout : Deposit s aid amount = (.error .accountNotFound, s) := by
            simp [Deposit, h1, hfind]
          simp only [runOps, hout]
          obtain ⟨acc', e1, e2, e3, e4⟩ := ih s acc h
          exact ⟨acc', e1, e2, e3, by omega⟩
    | reject pid =>
      cases hfp : FindPaymentByID s pid with
      | error e =>
        have hout : Reject s pid = (.error e, s) := by
          simp [Reject, hfp]
        simp only [runOps, hout, hfp]
        obtain ⟨acc', e1, e2, e3, e4⟩ := ih s acc h
        exact ⟨acc', e1, e2, e3, by omega⟩
      | ok p =>
        by_cases h2 : acc.id = p.accountID
        · have hfind : FindAccountByID s p.accountID = .ok acc := by
            unfold FindAccountByID
            rw [h]
            simp [h2]
          have hout : Reject s pid =
              (.ok (), { s with
                payments := setStatusLastPayment s.payments pid statusFail,
                accounts := updateFirstAccount s.accounts p.accountID
                  (fun a => { a with balance := a.balance + p.amount }) }) := by
            simp [Reject, hfp, hfind]
          have haccs : (Reject s pid).2.accounts =
              [{ acc with balance := acc.balance + p.amount }] := by
            rw [hout, h]
            simp [updateFirstAccount, h2]
          simp only [runOps, hout, hfp]
          obtain ⟨acc', e1, e2, e3, e4⟩ :=
            ih (Reject s pid).2 { acc with balance := acc.balance + p.amount } haccs
          rw [hout] at e1 e4
          dsimp only at e1 e4
          exact ⟨acc', e1, e2, e3, by omega⟩
        · have hfind : FindAccountByID s p.accountID = .error .accountNotFound := by
            unfold FindAccountByID
            rw [h]
            simp [h2]
          have hout : Reject s pid = (.error .accountNotFound, s) := by
            simp [Reject, hfp, hfind]
          simp only [runOps, hout, hfp]
          obtain ⟨acc', e1, e2, e3, e4⟩ := ih s acc h
          exact ⟨acc', e1, e2, e3, by omega⟩

/-- The single-account service and operation sequences of the C1 analysis:
fund with 10, pay 5 (payment `p1`), then reject `p1` once or twice. -/
def c1Service : Service := ⟨1, [⟨1, chars "900", 0⟩], [], []⟩

def c1Ops : List Op :=
  [.deposit 1 10, .pay 1 5 (chars "c") (chars "p1"), .reject (chars "p1")]

def c1OpsTwice : List Op :=
  [.deposit 1 10, .pay 1 5 (chars "c") (chars "p1"),
   .reject (chars "p1"), .reject (chars "p1")]

/-- C1 (amended: the balance subtracts ALL successfully created payments,
not only the never-rejected ones): for any Pay/Deposit/Reject sequence on a
single-account service the final balance is the initial balance plus the
deposits, minus the amounts of all payments made, plus the amount refunded
by each successful Reject call — each Reject sets the payment's status to
Fail and credits the full amount with no InProgress check, so the
double-Reject sequence ends with balance 15 (the 5 refunded twice). -/
theorem C1_balance_accounting :
    (∀ (ops : List Op) (s : Service) (acc : Account), s.accounts = [acc] →
      ∃ acc', (runOps s ops).1.accounts = [acc'] ∧ acc'.id = acc.id ∧
        acc'.phone = acc.phone ∧
        acc'.balance = acc.balance + (runOps s ops).2.1 - (runOps s ops).2.2.1 +
          (runOps s ops).2.2.2) ∧
    ((runOps c1Service c1OpsTwice).1.accounts.map (fun a => a.balance) = [15]) := by
  exact ⟨runOps_single_account, by decide⟩

/-- Witness for C1: the invariant applied to the concrete single-reject
run. -/
theorem C1_witness :
    ∃ acc', (runOps c1Service c1Ops).1.accounts = [acc'] ∧ acc'.id = 1 ∧
      acc'.phone = chars "900" ∧
      acc'.balance = 0 + (runOps c1Service c1Ops).2.1 - (runOps c1Service c1Ops).2.2.1 +
        (runOps c1Service c1Ops).2.2.2 :=
  C1_balance_accounting.1 c1Ops c1Service ⟨1, chars "900", 0⟩ rfl

/-- Counterexample for C1 as stated: on the deposit-pay-reject run the
final balance is 10, while the claim's formula — initial + deposits − (sum
of amounts of payments never rejected) + (sum refunded by Reject calls) —
evaluates to 0 + 10 − 0 + 5 = 15. -/
theorem C1_counterexample :
    ((runOps c1Service c1Ops).1.accounts.map (fun a => a.balance) = [10]) ∧
    ((0 : Int) + (runOps c1Service c1Ops).2.1 -
        sumNeverRejected (runOps c1Service c1Ops).1 +
        (runOps c1Service c1Ops).2.2.2 = 15) ∧
    ((10 : Int) ≠ 15) := by
  refine ⟨by decide, by decide, by decide⟩

end Wallet
